import Mathlib

/-!
Verification of the MCQA prediction-orchestration layer
(`src/app/models/mcqa_model.py`) against its natural-language
specification.

The Python module is shallowly embedded: pure string manipulation and
validation become Lean functions on `String`/`List`, exceptional control
flow becomes `Except PyExn`, machine floats become exact reals `ℝ`, and
the two external collaborators (the Hugging Face tokenizer and the
scoring model) become an explicit `Backend` parameter.  Per the spec
(§1, §6) the scoring capability assigns a relative-likelihood score to
each candidate text; it is modelled as an opaque function
`score : String → ℝ` applied per candidate, together with explicit
exception behaviour for the tokenization and forward-pass steps.

`_predict_helper` is additionally instrumented with a `Trace` recording
how many times the tokenizer and the scoring model were invoked, so
that "zero scoring-capability invocations" properties are expressible.
-/

namespace MCQA

/-- Exceptions that can escape the embedded code.  `validationError`,
`predictionError` (with the `__cause__` set by `raise ... from e`
modelled as an optional cause message) and `indexError` /
`fileNotFoundError` correspond to the exception classes the Python
module actually raises.  `uncaught` models an arbitrary exception
object raised by a collaborator and propagating unchanged.
`configurationError` is the startup-fault class named by the spec's
error taxonomy (§7); it exists in this type only so that its absence
from the code's behaviour can be stated — no embedded function ever
constructs it. -/
inductive PyExn where
  | validationError (msg : String)
  | predictionError (msg : String) (cause : Option String)
  | indexError
  | fileNotFoundError (msg : String)
  | uncaught (msg : String)
  | configurationError (msg : String)
deriving DecidableEq, Repr

deriving instance DecidableEq for Except

/-- Classifier used to state which exception class a result carries. -/
def PyExn.isPredictionError : PyExn → Bool
  | .predictionError _ _ => true
  | _ => false

/-- Classifier for the spec-taxonomy startup-fault class. -/
def PyExn.isConfigurationError : PyExn → Bool
  | .configurationError _ => true
  | _ => false

/-- Embedding of the `MCQAConfig` dataclass (lines 27-35).
`model_directory` is kept as a plain string; `device` as an optional
override string. -/
structure MCQAConfig where
  model_directory : String
  number_of_choices : Nat := 4
  max_length : Nat := 512
  device : Option String := none
  batch_size_limit : Nat := 32
  enable_warmup : Bool := true
deriving Repr

/-- Exception behaviour of the scoring model's forward pass:
`torch.cuda.OutOfMemoryError` or any other exception. -/
inductive ScoreExn where
  | cudaOOM (msg : String)
  | other (msg : String)
deriving DecidableEq, Repr

/-- The two external collaborators of the core (spec §6): the
tokenizer and the scoring model.  `tokExn l` / `scoreExn l` give the
exception (if any) each raises when invoked on the flattened candidate
list `l`; when no exception occurs the model's raw logit for a
candidate text is the opaque per-candidate function `score`. -/
structure Backend where
  tokExn : List String → Option String
  scoreExn : List String → Option ScoreExn
  score : String → ℝ

/-- Invocation counts of the two collaborators during one call. -/
structure Trace where
  tokenizeCalls : Nat
  scoreCalls : Nat
deriving DecidableEq, Repr

/-- Python's `str.replace` scans left to right and replaces every
non-overlapping occurrence of the pattern.  Structural recursion on a
fuel argument (instantiated with the input length, which bounds the
number of steps). -/
def replaceFuel (pat rep : List Char) : Nat → List Char → List Char
  | 0, l => l
  | _ + 1, [] => []
  | fuel + 1, c :: cs =>
    if pat ≠ [] ∧ pat.isPrefixOf (c :: cs) then
      rep ++ replaceFuel pat rep fuel (cs.drop (pat.length - 1))
    else
      c :: replaceFuel pat rep fuel cs

/-- Embedding of Python `s.replace(pat, rep)` for a non-empty pattern
(the module only ever replaces the literal `"[BLANK]"`). -/
def pyReplace (s pat rep : String) : String :=
  ⟨replaceFuel pat.data rep.data s.data.length s.data⟩

/-- Splitting counterpart of `replaceFuel`: the segments of the input
between consecutive non-overlapping occurrences of the pattern, found
left to right.  Used to state that `pyReplace` replaces *every*
occurrence: the result is these segments re-joined with the
replacement. -/
def splitFuel (pat : List Char) : Nat → List Char → List (List Char)
  | 0, l => [l]
  | _ + 1, [] => [[]]
  | fuel + 1, c :: cs =>
    if pat ≠ [] ∧ pat.isPrefixOf (c :: cs) then
      [] :: splitFuel pat fuel (cs.drop (pat.length - 1))
    else
      match splitFuel pat fuel cs with
      | [] => [[c]]
      | s :: ss => (c :: s) :: ss

/-- Embedding of Python's substring test `pat in s`. -/
def substrAux (pat : List Char) : List Char → Bool
  | [] => pat.isEmpty
  | c :: cs => pat.isPrefixOf (c :: cs) || substrAux pat cs

/-- `containsSub s pat` is Python's `pat in s`. -/
def containsSub (s pat : String) : Bool :=
  substrAux pat.data s.data

/-- Python's emptiness-after-strip test `not s.strip()`: the string
consists solely of whitespace characters (in particular, the empty
string is blank). -/
def isBlank (s : String) : Bool :=
  s.data.all Char.isWhitespace

/-- Embedding of `MCQAModel._validate_passage` (lines 108-126).  The
`isinstance(passage, str)` guard is vacuous in the typed embedding;
the remaining checks are kept in source order (`not passage or not
passage.strip()`, then the placeholder test). -/
def validate_passage (passage : String) : Except PyExn Unit :=
  if passage = "" ∨ isBlank passage then
    .error (.validationError "Passage cannot be empty")
  else if ¬ containsSub passage "[BLANK]" then
    .error (.validationError "Passage must contain [BLANK] placeholder")
  else
    .ok ()

/-- The `for idx, choice in enumerate(choices)` loop of
`_validate_choices` (lines 147-153); the `isinstance(choice, str)`
guard is vacuous in the typed embedding. -/
def validateChoicesLoop (idx : Nat) : List String → Except PyExn Unit
  | [] => .ok ()
  | choice :: rest =>
    if isBlank choice then
      .error (.validationError ("Choice " ++ toString idx ++ " cannot be empty"))
    else
      validateChoicesLoop (idx + 1) rest

/-- Embedding of `MCQAModel._validate_choices` (lines 128-153); the
`isinstance(choices, list)` guard is vacuous in the typed embedding. -/
def validate_choices (num_choices : Nat) (choices : List String) : Except PyExn Unit :=
  if choices.length ≠ num_choices then
    .error (.validationError
      ("Expected " ++ toString num_choices ++ " choices, got " ++ toString choices.length))
  else
    validateChoicesLoop 0 choices

/-- The `try` body of the batch-validation loop (lines 183-185):
validate the passage, then the choices. -/
def validatePair (num_choices : Nat) (passage : String) (choices : List String) :
    Except PyExn Unit :=
  match validate_passage passage with
  | .error e => .error e
  | .ok _ => validate_choices num_choices choices

/-- The `for idx, (passage, choices) in enumerate(zip(...))` loop of
`_validate_batch_inputs` (lines 182-187): a `ValidationError` from one
element is wrapped with the offending index. -/
def validateBatchLoop (num_choices : Nat) (idx : Nat) :
    List (String × List String) → Except PyExn Unit
  | [] => .ok ()
  | (passage, choices) :: rest =>
    match validatePair num_choices passage choices with
    | .error (.validationError m) =>
        .error (.validationError ("Invalid input at index " ++ toString idx ++ ": " ++ m))
    | .error e => .error e
    | .ok _ => validateBatchLoop num_choices (idx + 1) rest

/-- Embedding of `MCQAModel._validate_batch_inputs` (lines 155-187). -/
def validate_batch_inputs (cfg : MCQAConfig)
    (passages : List String) (choices_list : List (List String)) : Except PyExn Unit :=
  if passages.length ≠ choices_list.length then
    .error (.validationError
      ("Number of passages (" ++ toString passages.length
        ++ ") must match number of choice lists (" ++ toString choices_list.length ++ ")"))
  else if passages.length > cfg.batch_size_limit then
    .error (.validationError
      ("Batch size " ++ toString passages.length ++ " exceeds limit "
        ++ toString cfg.batch_size_limit))
  else
    validateBatchLoop cfg.number_of_choices 0 (passages.zip choices_list)

/-- Embedding of the model-directory existence check of
`MCQAModel.__init__` (lines 66-69): construction fails fast with
`FileNotFoundError` before any collaborator is loaded.  The filesystem
is opaque, so whether the resolved path exists is a boolean parameter;
the subsequent tokenizer/model/device loading is collaborator work
outside the core and is represented by the `.ok ()` completion. -/
def mcqaInit (pathExists : Bool) (resolvedPath : String) : Except PyExn Unit :=
  if pathExists then
    .ok ()
  else
    .error (.fileNotFoundError ("Model directory not found: " ++ resolvedPath))

/-- Index of the first maximum-valued element seen so far:
`bestIdx`/`bestVal` are the current winner, `curIdx` the index of the
head of the remaining list.  A later element replaces the winner only
when it is strictly greater, so ties go to the lowest index — the
stable-argmax semantics of `torch.argmax` over one row. -/
def argmaxGo [LinearOrder α] (bestIdx : Nat) (bestVal : α) (curIdx : Nat) : List α → Nat
  | [] => bestIdx
  | y :: ys =>
    if bestVal < y then argmaxGo curIdx y (curIdx + 1) ys
    else argmaxGo bestIdx bestVal (curIdx + 1) ys

/-- `torch.argmax` over one row: first index attaining the maximum. -/
def argmaxIdx [LinearOrder α] : List α → Nat
  | [] => 0
  | x :: xs => argmaxGo 0 x 1 xs

/-- `torch.softmax(·, dim=-1)` applied to one row of logits, in exact
real arithmetic: exponentiate and normalize by the row sum. -/
noncomputable def softmaxRow (logits : List ℝ) : List ℝ :=
  let exps := logits.map Real.exp
  let s := exps.sum
  exps.map (fun e => e / s)

/-- One prediction result (`predicted_choice`, `confidence`), the
dictionary built per question at lines 244-247. -/
structure PredResult where
  predicted_choice : String
  confidence : ℝ

/-- The per-question body of the result loop of `_predict_helper`
(lines 240-247): softmax the row's logits, take the stable argmax, and
read the winning candidate text and its probability.  Out-of-range
defaults are never hit (`argmaxIdx` is always in range for a non-empty
row). -/
noncomputable def scoreRow (score : String → ℝ) (cands : List String) : PredResult :=
  let probs := softmaxRow (cands.map score)
  let pred_idx := argmaxIdx probs
  { predicted_choice := cands.getD pred_idx ""
    confidence := probs.getD pred_idx 0 }

/-- Embedding of `MCQAModel._predict_helper` (lines 189-250), paired
with the collaborator-invocation trace.  Control flow in source order:
`candidate_texts[0]` raises `IndexError` on an empty batch; the
tokenizer is invoked *outside* the `try` block, so its exceptions
propagate unchanged; the forward pass is invoked inside the `try`,
with `torch.cuda.OutOfMemoryError` and any other exception re-raised
as `PredictionError` (cause preserved by `raise ... from e`); finally
each row is reduced to a result.  The reshape to
`[batch, choices, -1]` makes each row scored independently, which the
row-wise `scoreRow` captures (row lengths are uniform at both call
sites, enforced by validation). -/
noncomputable def predict_helper (B : Backend) (candidate_texts : List (List String)) :
    Except PyExn (List PredResult) × Trace :=
  match candidate_texts with
  | [] => (.error .indexError, ⟨0, 0⟩)
  | _ :: _ =>
    let flat_candidates := candidate_texts.flatten
    match B.tokExn flat_candidates with
    | some msg => (.error (.uncaught msg), ⟨1, 0⟩)
    | none =>
      match B.scoreExn flat_candidates with
      | some (.cudaOOM msg) =>
        (.error (.predictionError
            ("GPU out of memory. Try reducing batch size (current: "
              ++ toString candidate_texts.length ++ ")") (some msg)), ⟨1, 1⟩)
      | some (.other msg) =>
        (.error (.predictionError ("Prediction failed: " ++ msg) (some msg)), ⟨1, 1⟩)
      | none =>
        (.ok (candidate_texts.map (scoreRow B.score)), ⟨1, 1⟩)

/-- The candidate-set construction of lines 271 and 296-299: one entry
per choice, in choice order, each the passage with every occurrence of
the placeholder replaced by that choice. -/
def buildCandidates (passage : String) (choices : List String) : List String :=
  choices.map (fun choice => pyReplace passage "[BLANK]" choice)

/-- Embedding of `MCQAModel.predict_blank` (lines 252-273): validate
choices then passage, build the single candidate set, run the helper,
and return its first result (`[0]` would raise `IndexError` on an
empty result list). -/
noncomputable def predict_blank (B : Backend) (cfg : MCQAConfig)
    (passage : String) (choices : List String) : Except PyExn PredResult × Trace :=
  match validate_choices cfg.number_of_choices choices with
  | .error e => (.error e, ⟨0, 0⟩)
  | .ok _ =>
    match validate_passage passage with
    | .error e => (.error e, ⟨0, 0⟩)
    | .ok _ =>
      match predict_helper B [buildCandidates passage choices] with
      | (.error e, t) => (.error e, t)
      | (.ok [], t) => (.error .indexError, t)
      | (.ok (r :: _), t) => (.ok r, t)

/-- Embedding of `MCQAModel.predict_batch` (lines 275-301): validate
the whole batch, build one candidate set per question, and run the
helper once. -/
noncomputable def predict_batch (B : Backend) (cfg : MCQAConfig)
    (passages : List String) (choices_list : List (List String)) :
    Except PyExn (List PredResult) × Trace :=
  match validate_batch_inputs cfg passages choices_list with
  | .error e => (.error e, ⟨0, 0⟩)
  | .ok _ =>
    let candidate_texts :=
      (passages.zip choices_list).map (fun pc => buildCandidates pc.1 pc.2)
    predict_helper B candidate_texts

/-- Python's `sep.join(segments)`. -/
def joinWith (sep : List Char) : List (List Char) → List Char
  | [] => []
  | [s] => s
  | s :: ss => s ++ sep ++ joinWith sep ss

/-- Modelled from the spec (§3 CandidateSet, §4.2): a candidate is the
passage with *every* occurrence of the placeholder substituted by the
choice — equivalently, the passage split on every non-overlapping
occurrence of `"[BLANK]"` and re-joined with the choice.  Stated
independently of `pyReplace` so that the builder can be proved to
refine it. -/
def specSubstitute (passage choice : String) : String :=
  ⟨joinWith choice.data (splitFuel "[BLANK]".data passage.data.length passage.data)⟩

/-- A configuration with the dataclass defaults (4 choices, batch
limit 32). -/
def cfgDefault : MCQAConfig :=
  { model_directory := "./models/mcqa" }

/-- A benign backend: no collaborator exceptions, all logits zero. -/
noncomputable def zeroBackend : Backend :=
  { tokExn := fun _ => none
    scoreExn := fun _ => none
    score := fun _ => 0 }

/-- A backend whose scoring favours the candidate obtained by filling
the example passage of the test suite with `"Paris"` (logit 1 versus
0 elsewhere), raising no exceptions. -/
noncomputable def parisBackend : Backend :=
  { tokExn := fun _ => none
    scoreExn := fun _ => none
    score := fun s => if s = "The capital of France is Paris." then 1 else 0 }

/-- A backend whose tokenizer raises an arbitrary exception. -/
noncomputable def tokFailBackend : Backend :=
  { tokExn := fun _ => some "tokenizer exploded"
    scoreExn := fun _ => none
    score := fun _ => 0 }

/-- A backend whose forward pass raises a device out-of-memory
error. -/
noncomputable def oomBackend : Backend :=
  { tokExn := fun _ => none
    scoreExn := fun _ => some (.cudaOOM "CUDA out of memory")
    score := fun _ => 0 }

/-- A backend whose forward pass raises a generic runtime error. -/
noncomputable def scoreFailBackend : Backend :=
  { tokExn := fun _ => none
    scoreExn := fun _ => some (.other "mat1 and mat2 shapes cannot be multiplied")
    score := fun _ => 0 }

/-! ### Validator characterizations -/

theorem isBlank_empty : isBlank "" = true := rfl

theorem ne_empty_of_not_isBlank (s : String) (h : isBlank s = false) : s ≠ "" := by
  intro he
  rw [he] at h
  exact absurd h (by simp [isBlank_empty])

theorem validate_passage_ok_iff (p : String) :
    validate_passage p = .ok () ↔ isBlank p = false ∧ containsSub p "[BLANK]" = true := by
  constructor
  · intro h
    unfold validate_passage at h
    by_cases h1 : p = "" ∨ isBlank p = true
    · rw [if_pos h1] at h; exact absurd h (by simp)
    · rw [if_neg h1] at h
      by_cases h2 : containsSub p "[BLANK]" = true
      · exact ⟨by simpa using fun hb => h1 (Or.inr hb), h2⟩
      · rw [if_pos (by simpa using h2)] at h; exact absurd h (by simp)
  · rintro ⟨hb, hc⟩
    have h1 : ¬(p = "" ∨ isBlank p = true) := by
      rintro (h | h)
      · rw [h] at hb
        rw [isBlank_empty] at hb
        cases hb
      · simp [h] at hb
    unfold validate_passage
    rw [if_neg h1, if_neg (not_not_intro hc)]

theorem validate_passage_cases (p : String) :
    validate_passage p = .ok () ∨ ∃ m, validate_passage p = .error (.validationError m) := by
  unfold validate_passage
  split_ifs <;> simp

theorem validateChoicesLoop_ok_iff :
    ∀ (l : List String) (idx : Nat),
      validateChoicesLoop idx l = .ok () ↔ ∀ c ∈ l, isBlank c = false
  | [], idx => by simp [validateChoicesLoop]
  | c :: rest, idx => by
    by_cases h : isBlank c
    · simp [validateChoicesLoop, h]
    · simp [validateChoicesLoop, h, validateChoicesLoop_ok_iff rest (idx + 1)]

theorem validateChoicesLoop_cases :
    ∀ (l : List String) (idx : Nat),
      validateChoicesLoop idx l = .ok () ∨
        ∃ m, validateChoicesLoop idx l = .error (.validationError m)
  | [], idx => by simp [validateChoicesLoop]
  | c :: rest, idx => by
    by_cases h : isBlank c
    · simp [validateChoicesLoop, h]
    · simpa [validateChoicesLoop, h] using validateChoicesLoop_cases rest (idx + 1)

theorem validate_choices_ok_iff (n : Nat) (cs : List String) :
    validate_choices n cs = .ok () ↔ cs.length = n ∧ ∀ c ∈ cs, isBlank c = false := by
  by_cases h : cs.length = n
  · simp [validate_choices, h, validateChoicesLoop_ok_iff]
  · simp [validate_choices, h]

theorem validate_choices_cases (n : Nat) (cs : List String) :
    validate_choices n cs = .ok () ∨
      ∃ m, validate_choices n cs = .error (.validationError m) := by
  by_cases h : cs.length = n
  · simpa [validate_choices, h] using validateChoicesLoop_cases cs 0
  · simp [validate_choices, h]

theorem validatePair_ok_iff (n : Nat) (p : String) (cs : List String) :
    validatePair n p cs = .ok () ↔
      validate_passage p = .ok () ∧ validate_choices n cs = .ok () := by
  rcases validate_passage_cases p with hp | ⟨m, hp⟩ <;>
    simp [validatePair, hp]

theorem validatePair_cases (n : Nat) (p : String) (cs : List String) :
    validatePair n p cs = .ok () ∨
      ∃ m, validatePair n p cs = .error (.validationError m) := by
  rcases validate_passage_cases p with hp | ⟨m, hp⟩
  · simpa [validatePair, hp] using validate_choices_cases n cs
  · simp [validatePair, hp]

theorem validateBatchLoop_ok :
    ∀ (pairs : List (String × List String)) (n idx : Nat),
      (∀ pc ∈ pairs, validatePair n pc.1 pc.2 = .ok ()) →
      validateBatchLoop n idx pairs = .ok ()
  | [], n, idx, _ => rfl
  | (p, cs) :: rest, n, idx, h => by
    have hhead := h (p, cs) (List.mem_cons_self _ _)
    simp only [validateBatchLoop, hhead]
    exact validateBatchLoop_ok rest n (idx + 1) (fun pc hpc => h pc (List.mem_cons_of_mem _ hpc))

theorem validateBatchLoop_err :
    ∀ (pairs : List (String × List String)) (n idx k : Nat), k < pairs.length →
      (∀ j < k, validatePair n (pairs.getD j ("", [])).1 (pairs.getD j ("", [])).2 = .ok ()) →
      validatePair n (pairs.getD k ("", [])).1 (pairs.getD k ("", [])).2 ≠ .ok () →
      ∃ m, validateBatchLoop n idx pairs =
        .error (.validationError ("Invalid input at index " ++ toString (idx + k) ++ ": " ++ m))
  | [], n, idx, k, hk, _, _ => absurd hk (by simp)
  | (p, cs) :: rest, n, idx, k, hk, hgood, hbad => by
    cases k with
    | zero =>
      rcases validatePair_cases n p cs with hok | ⟨m, herr⟩
      · exact absurd hok (by simpa using hbad)
      · exact ⟨m, by simp only [validateBatchLoop, herr]; rfl⟩
    | succ k' =>
      have hhead : validatePair n p cs = .ok () := by
        simpa using hgood 0 (Nat.succ_pos k')
      have hrest := validateBatchLoop_err rest n (idx + 1) k'
        (by simpa using hk)
        (fun j hj => by simpa using hgood (j + 1) (Nat.succ_lt_succ hj))
        (by simpa using hbad)
      rcases hrest with ⟨m, hm⟩
      refine ⟨m, ?_⟩
      simp only [validateBatchLoop, hhead]
      rw [hm, show idx + 1 + k' = idx + (k' + 1) from by omega]

theorem validate_batch_inputs_eq_ok (cfg : MCQAConfig)
    (ps : List String) (cls : List (List String))
    (hlen : ps.length = cls.length) (hlim : ps.length ≤ cfg.batch_size_limit)
    (hvalid : ∀ pc ∈ ps.zip cls, validatePair cfg.number_of_choices pc.1 pc.2 = .ok ()) :
    validate_batch_inputs cfg ps cls = .ok () := by
  simp only [validate_batch_inputs, hlen]
  rw [if_neg (by omega), if_neg (by omega)]
  exact validateBatchLoop_ok _ _ _ hvalid

/-! ### Replacement / split / join lemmas -/

theorem replaceFuel_ne_nil (pat rep : List Char) :
    ∀ (fuel : Nat) (l : List Char), l ≠ [] → rep ≠ [] → replaceFuel pat rep fuel l ≠ []
  | 0, l, hl, _ => by simpa [replaceFuel] using hl
  | _ + 1, [], hl, _ => absurd rfl hl
  | _ + 1, c :: cs, _, hrep => by
    unfold replaceFuel
    split_ifs with h
    · simp [hrep]
    · simp

theorem splitFuel_ne_nil (pat : List Char) :
    ∀ (fuel : Nat) (l : List Char), splitFuel pat fuel l ≠ []
  | 0, l => by simp [splitFuel]
  | _ + 1, [] => by simp [splitFuel]
  | fuel + 1, c :: cs => by
    unfold splitFuel
    split_ifs with h
    · simp
    · cases hs : splitFuel pat fuel cs <;> simp

theorem replaceFuel_eq_joinWith (pat rep : List Char) :
    ∀ (fuel : Nat) (l : List Char),
      replaceFuel pat rep fuel l = joinWith rep (splitFuel pat fuel l)
  | 0, l => rfl
  | _ + 1, [] => rfl
  | fuel + 1, c :: cs => by
    unfold replaceFuel splitFuel
    split_ifs with h
    · rw [replaceFuel_eq_joinWith pat rep fuel (cs.drop (pat.length - 1))]
      rcases hs : splitFuel pat fuel (cs.drop (pat.length - 1)) with _ | ⟨s, ss⟩
      · exact absurd hs (splitFuel_ne_nil pat fuel _)
      · rfl
    · rw [replaceFuel_eq_joinWith pat rep fuel cs]
      rcases hs : splitFuel pat fuel cs with _ | ⟨s, ss⟩
      · exact absurd hs (splitFuel_ne_nil pat fuel cs)
      · cases ss <;> rfl

theorem pyReplace_eq_specSubstitute (passage choice : String) :
    pyReplace passage "[BLANK]" choice = specSubstitute passage choice := by
  unfold pyReplace specSubstitute
  rw [replaceFuel_eq_joinWith]

theorem data_ne_nil_of_ne_empty (s : String) (h : s ≠ "") : s.data ≠ [] := by
  intro hd
  exact h (by cases s; simp_all)

theorem pyReplace_ne_empty (s pat rep : String) (hs : s ≠ "") (hrep : rep ≠ "") :
    pyReplace s pat rep ≠ "" := by
  unfold pyReplace
  intro h
  have hd : replaceFuel pat.data rep.data s.data.length s.data = [] := by
    have := congrArg String.data h
    simpa using this
  exact replaceFuel_ne_nil pat.data rep.data s.data.length s.data
    (data_ne_nil_of_ne_empty s hs) (data_ne_nil_of_ne_empty rep hrep) hd

/-! ### Argmax lemmas -/

theorem argmaxGo_lt {α : Type} [LinearOrder α] :
    ∀ (l : List α) (bi : Nat) (bv : α) (ci : Nat), bi < ci →
      argmaxGo bi bv ci l < ci + l.length
  | [], _, _, _, h => by simpa [argmaxGo] using h
  | y :: ys, bi, bv, ci, h => by
    unfold argmaxGo
    split_ifs with hlt
    · have := argmaxGo_lt ys ci y (ci + 1) (Nat.lt_succ_self ci)
      simp only [List.length_cons]
      omega
    · have := argmaxGo_lt ys bi bv (ci + 1) (Nat.lt_succ_of_lt h)
      simp only [List.length_cons]
      omega

theorem argmaxIdx_lt_length {α : Type} [LinearOrder α] (l : List α) (h : l ≠ []) :
    argmaxIdx l < l.length := by
  cases l with
  | nil => exact absurd rfl h
  | cons x xs =>
    have := argmaxGo_lt xs 0 x 1 Nat.zero_lt_one
    simp only [argmaxIdx, List.length_cons]
    omega

theorem argmaxGo_map {α β : Type} [LinearOrder α] [LinearOrder β]
    (f : α → β) (hf : StrictMono f) :
    ∀ (l : List α) (bi : Nat) (bv : α) (ci : Nat),
      argmaxGo bi (f bv) ci (l.map f) = argmaxGo bi bv ci l
  | [], _, _, _ => rfl
  | y :: ys, bi, bv, ci => by
    simp only [List.map_cons]
    unfold argmaxGo
    by_cases h : bv < y
    · rw [if_pos (hf h), if_pos h, argmaxGo_map f hf ys ci y (ci + 1)]
    · rw [if_neg (fun hc => h (hf.lt_iff_lt.mp hc)), if_neg h,
        argmaxGo_map f hf ys bi bv (ci + 1)]

theorem argmaxIdx_map {α β : Type} [LinearOrder α] [LinearOrder β]
    (f : α → β) (hf : StrictMono f) (l : List α) :
    argmaxIdx (l.map f) = argmaxIdx l := by
  cases l with
  | nil => rfl
  | cons x xs =>
    simp only [List.map_cons, argmaxIdx]
    exact argmaxGo_map f hf xs 0 x 1

/-! ### Softmax lemmas -/

theorem sum_map_div (xs : List ℝ) (c : ℝ) :
    (xs.map (fun x => x / c)).sum = xs.sum / c := by
  induction xs with
  | nil => simp
  | cons x xs ih => simp [ih, add_div]

theorem softmaxRow_length (l : List ℝ) : (softmaxRow l).length = l.length := by
  simp [softmaxRow]

theorem exps_sum_pos (l : List ℝ) (h : l ≠ []) : 0 < (l.map Real.exp).sum := by
  apply List.sum_pos
  · intro x hx
    rcases List.mem_map.mp hx with ⟨y, _, rfl⟩
    exact Real.exp_pos y
  · simpa using h

theorem softmaxRow_sum (l : List ℝ) (h : l ≠ []) : (softmaxRow l).sum = 1 := by
  show ((l.map Real.exp).map (fun e => e / (l.map Real.exp).sum)).sum = 1
  rw [sum_map_div]
  exact div_self (ne_of_gt (exps_sum_pos l h))

theorem softmaxRow_mem_bounds (l : List ℝ) (h : l ≠ []) :
    ∀ y ∈ softmaxRow l, 0 ≤ y ∧ y ≤ 1 := by
  intro y hy
  have hS := exps_sum_pos l h
  have hrow : softmaxRow l = (l.map Real.exp).map (fun e => e / (l.map Real.exp).sum) := rfl
  rw [hrow] at hy
  rcases List.mem_map.mp hy with ⟨e, he, rfl⟩
  have hnn : ∀ z ∈ l.map Real.exp, 0 ≤ z := by
    intro z hz
    rcases List.mem_map.mp hz with ⟨x, _, rfl⟩
    exact le_of_lt (Real.exp_pos x)
  constructor
  · rcases List.mem_map.mp he with ⟨x, _, rfl⟩
    exact div_nonneg (le_of_lt (Real.exp_pos x)) (le_of_lt hS)
  · rw [div_le_one hS]
    exact List.single_le_sum hnn e he

theorem argmaxIdx_softmaxRow (l : List ℝ) :
    argmaxIdx (softmaxRow l) = argmaxIdx l := by
  rcases eq_or_ne l [] with rfl | h
  · rfl
  · have hS := exps_sum_pos l h
    have hrow : softmaxRow l = l.map (fun x => Real.exp x / (l.map Real.exp).sum) := by
      show (l.map Real.exp).map (fun e => e / (l.map Real.exp).sum) = _
      rw [List.map_map]
      rfl
    rw [hrow]
    exact argmaxIdx_map _
      (fun a b hab => div_lt_div_of_pos_right (Real.exp_lt_exp.mpr hab) hS) l

/-! ### List-access helpers -/

theorem map_getD_of_lt {α β : Type} (f : α → β) (l : List α) (i : Nat)
    (hi : i < l.length) (d : α) (d2 : β) :
    (l.map f).getD i d2 = f (l.getD i d) := by
  rw [List.getD_eq_getElem _ _ (by simpa using hi), List.getElem_map,
    List.getD_eq_getElem _ _ hi]

theorem getD_mem_of_lt {α : Type} (l : List α) (i : Nat) (hi : i < l.length) (d : α) :
    l.getD i d ∈ l := by
  rw [List.getD_eq_getElem _ _ hi]
  exact List.getElem_mem hi

theorem zip_getD_of_lt {α β : Type} (a : List α) (b : List β) (i : Nat)
    (hia : i < a.length) (hib : i < b.length) (da : α) (db : β) :
    (a.zip b).getD i (da, db) = (a.getD i da, b.getD i db) := by
  have hiz : i < (a.zip b).length := by
    rw [List.length_zip]
    omega
  rw [List.getD_eq_getElem _ _ hiz, List.getElem_zip,
    List.getD_eq_getElem _ _ hia, List.getD_eq_getElem _ _ hib]

/-! ### Score-row lemmas -/

theorem scoreRow_predicted_eq (f : String → ℝ) (cands : List String) :
    (scoreRow f cands).predicted_choice = cands.getD (argmaxIdx (cands.map f)) "" := by
  show cands.getD (argmaxIdx (softmaxRow (cands.map f))) "" = _
  rw [argmaxIdx_softmaxRow]

theorem scoreRow_argmax_lt (f : String → ℝ) (cands : List String) (h : cands ≠ []) :
    argmaxIdx (softmaxRow (cands.map f)) < cands.length := by
  have hlen : (softmaxRow (cands.map f)).length = cands.length := by
    rw [softmaxRow_length, List.length_map]
  have hne : softmaxRow (cands.map f) ≠ [] := by
    intro he
    have := congrArg List.length he
    rw [hlen] at this
    exact h (List.length_eq_zero.mp this)
  have := argmaxIdx_lt_length _ hne
  omega

theorem scoreRow_predicted_mem (f : String → ℝ) (cands : List String) (h : cands ≠ []) :
    (scoreRow f cands).predicted_choice ∈ cands :=
  getD_mem_of_lt cands _ (scoreRow_argmax_lt f cands h) ""

theorem scoreRow_confidence_eq (f : String → ℝ) (cands : List String) :
    (scoreRow f cands).confidence =
      (softmaxRow (cands.map f)).getD (argmaxIdx (softmaxRow (cands.map f))) 0 := rfl

theorem scoreRow_confidence_bounds (f : String → ℝ) (cands : List String) (h : cands ≠ []) :
    0 ≤ (scoreRow f cands).confidence ∧ (scoreRow f cands).confidence ≤ 1 := by
  have hlen : (softmaxRow (cands.map f)).length = cands.length := by
    rw [softmaxRow_length, List.length_map]
  have hmem : (scoreRow f cands).confidence ∈ softmaxRow (cands.map f) := by
    rw [scoreRow_confidence_eq]
    exact getD_mem_of_lt _ _ (by rw [hlen]; exact scoreRow_argmax_lt f cands h) 0
  exact softmaxRow_mem_bounds (cands.map f) (by simpa using h) _ hmem

/-! ### Pipeline run lemmas -/

theorem buildCandidates_ne_nil (p : String) (cs : List String) (h : cs ≠ []) :
    buildCandidates p cs ≠ [] := by
  simpa [buildCandidates] using h

theorem predict_helper_clean (B : Backend) (cts : List (List String)) (hne : cts ≠ [])
    (htok : B.tokExn cts.flatten = none) (hsc : B.scoreExn cts.flatten = none) :
    predict_helper B cts = (.ok (cts.map (scoreRow B.score)), ⟨1, 1⟩) := by
  cases cts with
  | nil => exact absurd rfl hne
  | cons r rs =>
    have htok2 : B.tokExn (r ++ rs.flatten) = none := htok
    have hsc2 : B.scoreExn (r ++ rs.flatten) = none := hsc
    simp [predict_helper, htok2, hsc2]

theorem predict_blank_run (B : Backend) (cfg : MCQAConfig)
    (passage : String) (choices : List String)
    (hch : validate_choices cfg.number_of_choices choices = .ok ())
    (hp : validate_passage passage = .ok ())
    (htok : ∀ l, B.tokExn l = none) (hsc : ∀ l, B.scoreExn l = none) :
    predict_blank B cfg passage choices =
      (.ok (scoreRow B.score (buildCandidates passage choices)), ⟨1, 1⟩) := by
  rw [predict_blank, hch, hp,
    predict_helper_clean B [buildCandidates passage choices] (by simp) (htok _) (hsc _)]
  rfl

theorem predict_batch_run (B : Backend) (cfg : MCQAConfig)
    (ps : List String) (cls : List (List String))
    (hok : validate_batch_inputs cfg ps cls = .ok ()) :
    predict_batch B cfg ps cls =
      predict_helper B ((ps.zip cls).map (fun pc => buildCandidates pc.1 pc.2)) := by
  rw [predict_batch, hok]

theorem length_pos_of_ne_empty (s : String) (h : s ≠ "") : 0 < s.length :=
  List.length_pos.mpr (data_ne_nil_of_ne_empty s h)

/-! ### Claim theorems -/

/-- C10: on the empty batch (zero passages, zero choice lists) batch
validation succeeds — the length check and the batch-size ceiling both
pass vacuously — but `predict_batch` then reaches
`_predict_helper`, whose `len(candidate_texts[0])` indexes the first
element of an empty list, so the call fails with an unhandled
`IndexError` (with zero tokenizer and zero scoring invocations) rather
than returning an empty result list or a
`ValidationError`/`PredictionError`. -/
theorem c10_empty_batch_index_error (B : Backend) (cfg : MCQAConfig) :
    validate_batch_inputs cfg ([] : List String) ([] : List (List String)) = .ok () ∧
    predict_batch B cfg [] [] = (.error .indexError, ⟨0, 0⟩) := by
  have hok : validate_batch_inputs cfg [] [] = .ok () :=
    validate_batch_inputs_eq_ok cfg [] [] rfl (Nat.zero_le _) (by simp)
  refine ⟨hok, ?_⟩
  rw [predict_batch_run B cfg [] [] hok]
  rfl

/-- C7: whenever the choices list's length differs from the configured
choice count, `predict_blank` fails with the `ValidationError` that
reports the expected and actual counts, and neither the tokenizer nor
the scoring capability is invoked (trace `⟨0, 0⟩`).  The choice-count
check runs first in `predict_blank`, so this holds for every passage
and every backend. -/
theorem c7_wrong_choice_count (B : Backend) (cfg : MCQAConfig)
    (passage : String) (choices : List String)
    (h : choices.length ≠ cfg.number_of_choices) :
    predict_blank B cfg passage choices =
      (.error (.validationError
        ("Expected " ++ toString cfg.number_of_choices ++ " choices, got "
          ++ toString choices.length)), ⟨0, 0⟩) := by
  have hv : validate_choices cfg.number_of_choices choices =
      .error (.validationError
        ("Expected " ++ toString cfg.number_of_choices ++ " choices, got "
          ++ toString choices.length)) := by
    unfold validate_choices
    rw [if_pos h]
  rw [predict_blank, hv]

/-- Witness for C7: a two-element choices list under the default
four-choice configuration is rejected with the exact count-reporting
message and a zero-invocation trace. -/
theorem c7_wrong_choice_count_witness :
    predict_blank zeroBackend cfgDefault "The capital of France is [BLANK]."
        ["London", "Paris"] =
      (.error (.validationError
        ("Expected " ++ toString cfgDefault.number_of_choices ++ " choices, got "
          ++ toString (["London", "Paris"] : List String).length)), ⟨0, 0⟩) :=
  c7_wrong_choice_count zeroBackend cfgDefault "The capital of France is [BLANK]."
    ["London", "Paris"] (by decide)

/-- C8: for every passage that is blank after trimming or lacks the
`[BLANK]` placeholder, prediction fails with a `ValidationError` and
performs zero tokenizer/scoring invocations — validation happens
strictly before any encoding.  (The `isinstance(passage, str)` branch
of the source is vacuous in this typed embedding.) -/
theorem c8_invalid_passage (B : Backend) (cfg : MCQAConfig)
    (passage : String) (choices : List String)
    (h : containsSub passage "[BLANK]" = false ∨ isBlank passage = true) :
    (∃ m, (predict_blank B cfg passage choices).1 = .error (.validationError m)) ∧
    (predict_blank B cfg passage choices).2 = ⟨0, 0⟩ := by
  have hpass : ∃ m, validate_passage passage = .error (.validationError m) := by
    rcases validate_passage_cases passage with hok | he
    · rw [validate_passage_ok_iff] at hok
      rcases h with h | h
      · rw [hok.2] at h; cases h
      · rw [hok.1] at h; cases h
    · exact he
  rcases validate_choices_cases cfg.number_of_choices choices with hc | ⟨m, hc⟩
  · rcases hpass with ⟨m, hm⟩
    rw [predict_blank, hc, hm]
    exact ⟨⟨m, rfl⟩, rfl⟩
  · rw [predict_blank, hc]
    exact ⟨⟨m, rfl⟩, rfl⟩

/-- Witness for C8: a placeholder-free passage with otherwise valid
choices is rejected before any collaborator invocation. -/
theorem c8_invalid_passage_witness :
    (∃ m, (predict_blank zeroBackend cfgDefault "This has no placeholder"
      ["London", "Paris", "Berlin", "Madrid"]).1 = .error (.validationError m)) ∧
    (predict_blank zeroBackend cfgDefault "This has no placeholder"
      ["London", "Paris", "Berlin", "Madrid"]).2 = ⟨0, 0⟩ :=
  c8_invalid_passage zeroBackend cfgDefault "This has no placeholder"
    ["London", "Paris", "Berlin", "Madrid"] (by decide)

/-- C5: the candidate set built before scoring has exactly one entry
per choice, in choice order; entry `i` is the passage with every
non-overlapping occurrence of `"[BLANK]"` literally replaced by choice
`i` — both as the embedded `str.replace` (`pyReplace`) and as the
spec-side split-and-rejoin characterization (`specSubstitute`).  The
construction is a total function (no failure path). -/
theorem c5_candidate_construction (passage : String) (choices : List String) :
    (buildCandidates passage choices).length = choices.length ∧
    ∀ i, i < choices.length →
      (buildCandidates passage choices).getD i "" =
        pyReplace passage "[BLANK]" (choices.getD i "") ∧
      (buildCandidates passage choices).getD i "" =
        specSubstitute passage (choices.getD i "") := by
  refine ⟨by simp [buildCandidates], fun i hi => ?_⟩
  have h1 : (buildCandidates passage choices).getD i "" =
      pyReplace passage "[BLANK]" (choices.getD i "") :=
    map_getD_of_lt _ choices i hi "" ""
  exact ⟨h1, h1.trans (pyReplace_eq_specSubstitute _ _)⟩

/-- Witness for C5: a passage with two placeholder occurrences; the
first candidate substitutes the first choice into both occurrences. -/
theorem c5_candidate_construction_witness :
    (buildCandidates "[BLANK] and [BLANK] again" ["x", "y", "z", "w"]).length =
      (["x", "y", "z", "w"] : List String).length ∧
    (buildCandidates "[BLANK] and [BLANK] again" ["x", "y", "z", "w"]).getD 0 "" =
      pyReplace "[BLANK] and [BLANK] again" "[BLANK]"
        ((["x", "y", "z", "w"] : List String).getD 0 "") ∧
    (buildCandidates "[BLANK] and [BLANK] again" ["x", "y", "z", "w"]).getD 0 "" =
      specSubstitute "[BLANK] and [BLANK] again"
        ((["x", "y", "z", "w"] : List String).getD 0 "") := by
  have h := c5_candidate_construction "[BLANK] and [BLANK] again" ["x", "y", "z", "w"]
  exact ⟨h.1, (h.2 0 (by decide)).1, (h.2 0 (by decide)).2⟩

/-- C3: in a batch whose two input lists are aligned and within the
batch-size ceiling, if every question before index `k` is valid and
the question at index `k` is invalid, `predict_batch` fails with a
`ValidationError` whose message references index `k`, produces no
output at all, and performs zero tokenizer and zero scoring
invocations (trace `⟨0, 0⟩`) — batch validation is atomic. -/
theorem c3_batch_atomicity (B : Backend) (cfg : MCQAConfig)
    (passages : List String) (choices_list : List (List String)) (k : Nat)
    (hlen : passages.length = choices_list.length)
    (hlim : passages.length ≤ cfg.batch_size_limit)
    (hk : k < passages.length)
    (hgood : ∀ j < k, validate_passage (passages.getD j "") = .ok () ∧
      validate_choices cfg.number_of_choices (choices_list.getD j []) = .ok ())
    (hbad : ¬ (validate_passage (passages.getD k "") = .ok () ∧
      validate_choices cfg.number_of_choices (choices_list.getD k []) = .ok ())) :
    ∃ m, predict_batch B cfg passages choices_list =
      (.error (.validationError
        ("Invalid input at index " ++ toString k ++ ": " ++ m)), ⟨0, 0⟩) := by
  have hkz : k < (passages.zip choices_list).length := by
    rw [List.length_zip]; omega
  have hpair : ∀ j, j < passages.length →
      (passages.zip choices_list).getD j ("", []) =
        (passages.getD j "", choices_list.getD j []) := by
    intro j hj
    exact zip_getD_of_lt _ _ j hj (by omega) "" []
  have herr := validateBatchLoop_err (passages.zip choices_list)
    cfg.number_of_choices 0 k hkz
    (fun j hj => by
      rw [hpair j (by omega)]
      exact (validatePair_ok_iff _ _ _).mpr (hgood j hj))
    (by
      rw [hpair k hk]
      intro hok
      exact hbad ((validatePair_ok_iff _ _ _).mp hok))
  rcases herr with ⟨m, hm⟩
  rw [Nat.zero_add] at hm
  refine ⟨m, ?_⟩
  have hv : validate_batch_inputs cfg passages choices_list =
      .error (.validationError ("Invalid input at index " ++ toString k ++ ": " ++ m)) := by
    unfold validate_batch_inputs
    rw [if_neg (by omega), if_neg (by omega)]
    exact hm
  rw [predict_batch, hv]

/-- Witness for C3: a two-question batch whose second question lacks
the placeholder fails atomically with a message citing index 1. -/
theorem c3_batch_atomicity_witness :
    ∃ m, predict_batch zeroBackend cfgDefault
        ["The capital of France is [BLANK].", "This has no placeholder"]
        [["London", "Paris", "Berlin", "Madrid"], ["Rome", "Paris", "Berlin", "Madrid"]] =
      (.error (.validationError
        ("Invalid input at index " ++ toString (1 : Nat) ++ ": " ++ m)), ⟨0, 0⟩) :=
  c3_batch_atomicity zeroBackend cfgDefault
    ["The capital of France is [BLANK].", "This has no placeholder"]
    [["London", "Paris", "Berlin", "Madrid"], ["Rome", "Paris", "Berlin", "Madrid"]]
    1 (by decide) (by decide) (by decide) (by decide) (by decide)

/-- C6: for a valid question under a positive configured choice count
and a backend raising no exceptions, `predict_blank` succeeds and the
returned confidence lies in `[0, 1]`, the per-question softmax over
that question's own candidates sums to 1, and the confidence is
exactly the entry of that distribution selected by the (stable)
argmax — i.e. the probability mass of the winning candidate,
normalized only over this question's `choice_count` candidates. -/
theorem c6_confidence_normalized (B : Backend) (cfg : MCQAConfig)
    (passage : String) (choices : List String)
    (hch : validate_choices cfg.number_of_choices choices = .ok ())
    (hp : validate_passage passage = .ok ())
    (hn : 0 < cfg.number_of_choices)
    (htok : ∀ l, B.tokExn l = none) (hsc : ∀ l, B.scoreExn l = none) :
    ∃ r, (predict_blank B cfg passage choices).1 = .ok r ∧
      0 ≤ r.confidence ∧ r.confidence ≤ 1 ∧
      (softmaxRow ((buildCandidates passage choices).map B.score)).sum = 1 ∧
      r.confidence =
        (softmaxRow ((buildCandidates passage choices).map B.score)).getD
          (argmaxIdx (softmaxRow ((buildCandidates passage choices).map B.score))) 0 := by
  have hrun := predict_blank_run B cfg passage choices hch hp htok hsc
  have hlen := ((validate_choices_ok_iff _ _).mp hch).1
  have hcne : choices ≠ [] := by
    intro he
    rw [he] at hlen
    simp at hlen
    omega
  have hbne := buildCandidates_ne_nil passage choices hcne
  refine ⟨scoreRow B.score (buildCandidates passage choices), by rw [hrun], ?_, ?_, ?_, rfl⟩
  · exact (scoreRow_confidence_bounds _ _ hbne).1
  · exact (scoreRow_confidence_bounds _ _ hbne).2
  · exact softmaxRow_sum _ (by simpa using hbne)

/-- Witness for C6: the test-suite question under the default
configuration and a benign backend. -/
theorem c6_confidence_normalized_witness :
    ∃ r, (predict_blank zeroBackend cfgDefault "The capital of France is [BLANK]."
        ["London", "Paris", "Berlin", "Madrid"]).1 = .ok r ∧
      0 ≤ r.confidence ∧ r.confidence ≤ 1 ∧
      (softmaxRow ((buildCandidates "The capital of France is [BLANK]."
        ["London", "Paris", "Berlin", "Madrid"]).map zeroBackend.score)).sum = 1 ∧
      r.confidence =
        (softmaxRow ((buildCandidates "The capital of France is [BLANK]."
          ["London", "Paris", "Berlin", "Madrid"]).map zeroBackend.score)).getD
          (argmaxIdx (softmaxRow ((buildCandidates "The capital of France is [BLANK]."
            ["London", "Paris", "Berlin", "Madrid"]).map zeroBackend.score))) 0 :=
  c6_confidence_normalized zeroBackend cfgDefault "The capital of France is [BLANK]."
    ["London", "Paris", "Berlin", "Madrid"]
    (by decide) (by decide) (by decide) (fun _ => rfl) (fun _ => rfl)

/-- C4 (counterexample): the empty batch passes batch validation — it
is a valid batch of `n = 0` questions — yet `predict_batch` does not
return `n = 0` results in input order: it fails with an unhandled
`IndexError`, so the claim "every valid batch of n questions yields
exactly n results" is false at `n = 0`. -/
theorem c4_empty_batch_counterexample :
    validate_batch_inputs cfgDefault ([] : List String) ([] : List (List String)) = .ok () ∧
    (predict_batch zeroBackend cfgDefault [] []).1 = .error .indexError := by
  have hok : validate_batch_inputs cfgDefault [] [] = .ok () :=
    validate_batch_inputs_eq_ok cfgDefault [] [] rfl (Nat.zero_le _) (by simp)
  refine ⟨hok, ?_⟩
  rw [predict_batch_run zeroBackend cfgDefault [] [] hok]
  rfl

/-- C4 (amended): for every *non-empty* valid batch of `n` questions
(aligned lists, within the batch-size ceiling, every question valid)
under an exception-free backend, `predict_batch` returns exactly `n`
results in input order, and the result at index `i` equals what
`predict_blank` returns on question `i` alone — it is derived solely
from the passage and choices at index `i`. -/
theorem c4_batch_order_preserved (B : Backend) (cfg : MCQAConfig)
    (passages : List String) (choices_list : List (List String))
    (hlen : passages.length = choices_list.length)
    (hlim : passages.length ≤ cfg.batch_size_limit)
    (hne : passages ≠ [])
    (hvalid : ∀ i < passages.length,
      validate_passage (passages.getD i "") = .ok () ∧
      validate_choices cfg.number_of_choices (choices_list.getD i []) = .ok ())
    (htok : ∀ l, B.tokExn l = none) (hsc : ∀ l, B.scoreExn l = none) :
    ∃ rs, (predict_batch B cfg passages choices_list).1 = .ok rs ∧
      rs.length = passages.length ∧
      ∀ i < passages.length,
        rs.getD i ⟨"", 0⟩ =
          scoreRow B.score
            (buildCandidates (passages.getD i "") (choices_list.getD i [])) ∧
        (predict_blank B cfg (passages.getD i "") (choices_list.getD i [])).1 =
          .ok (rs.getD i ⟨"", 0⟩) := by
  have hvalid2 : ∀ pc ∈ passages.zip choices_list,
      validatePair cfg.number_of_choices pc.1 pc.2 = .ok () := by
    intro pc hpc
    rcases List.mem_iff_getElem.mp hpc with ⟨i, hi, rfl⟩
    have hip : i < passages.length := by
      rw [List.length_zip] at hi; omega
    have hic : i < choices_list.length := by omega
    rw [List.getElem_zip]
    apply (validatePair_ok_iff _ _ _).mpr
    have hv := hvalid i hip
    rwa [List.getD_eq_getElem _ _ hip, List.getD_eq_getElem _ _ hic] at hv
  have hok := validate_batch_inputs_eq_ok cfg passages choices_list hlen hlim hvalid2
  have hzlen : (passages.zip choices_list).length = passages.length := by
    rw [List.length_zip]; omega
  have hzne : (passages.zip choices_list).map (fun pc => buildCandidates pc.1 pc.2) ≠ [] := by
    intro he
    have := congrArg List.length he
    simp only [List.length_map, hzlen, List.length_nil] at this
    exact hne (List.length_eq_zero.mp this)
  have hrun := predict_batch_run B cfg passages choices_list hok
  rw [predict_helper_clean B _ hzne (htok _) (hsc _)] at hrun
  refine ⟨((passages.zip choices_list).map
      (fun pc => buildCandidates pc.1 pc.2)).map (scoreRow B.score),
    by rw [hrun], by simp [hzlen], fun i hi => ?_⟩
  have hib : i < ((passages.zip choices_list).map
      (fun pc => buildCandidates pc.1 pc.2)).length := by
    simpa [hzlen] using hi
  have hresult : (((passages.zip choices_list).map
      (fun pc => buildCandidates pc.1 pc.2)).map (scoreRow B.score)).getD i ⟨"", 0⟩ =
      scoreRow B.score
        (buildCandidates (passages.getD i "") (choices_list.getD i [])) := by
    rw [map_getD_of_lt (scoreRow B.score) _ i hib []]
    congr 1
    rw [map_getD_of_lt _ _ i (by omega : i < (passages.zip choices_list).length) ("", [])]
    rw [zip_getD_of_lt _ _ i hi (by omega) "" []]
  refine ⟨hresult, ?_⟩
  have hv := hvalid i hi
  rw [predict_blank_run B cfg _ _ hv.2 hv.1 htok hsc, hresult]

/-- Witness for the amended C4: a two-question valid batch under the
default configuration and a benign backend. -/
theorem c4_batch_order_preserved_witness :
    ∃ rs, (predict_batch zeroBackend cfgDefault
        ["The capital of France is [BLANK].", "The capital of Germany is [BLANK]."]
        [["London", "Paris", "Berlin", "Madrid"],
          ["Rome", "Paris", "Berlin", "Madrid"]]).1 = .ok rs ∧
      rs.length = (["The capital of France is [BLANK].",
        "The capital of Germany is [BLANK]."] : List String).length ∧
      ∀ i < (["The capital of France is [BLANK].",
          "The capital of Germany is [BLANK]."] : List String).length,
        rs.getD i ⟨"", 0⟩ =
          scoreRow zeroBackend.score
            (buildCandidates
              ((["The capital of France is [BLANK].",
                "The capital of Germany is [BLANK]."] : List String).getD i "")
              (([["London", "Paris", "Berlin", "Madrid"],
                ["Rome", "Paris", "Berlin", "Madrid"]] : List (List String)).getD i [])) ∧
        (predict_blank zeroBackend cfgDefault
            ((["The capital of France is [BLANK].",
              "The capital of Germany is [BLANK]."] : List String).getD i "")
            (([["London", "Paris", "Berlin", "Madrid"],
              ["Rome", "Paris", "Berlin", "Madrid"]] : List (List String)).getD i [])).1 =
          .ok (rs.getD i ⟨"", 0⟩) :=
  c4_batch_order_preserved zeroBackend cfgDefault
    ["The capital of France is [BLANK].", "The capital of Germany is [BLANK]."]
    [["London", "Paris", "Berlin", "Madrid"], ["Rome", "Paris", "Berlin", "Madrid"]]
    (by decide) (by decide) (by decide) (by decide) (fun _ => rfl) (fun _ => rfl)

/-- C2 (counterexample): the tokenizer call sits *outside* the `try`
block of `_predict_helper` (lines 211-217 versus 222-234), so an
exception raised by the tokenization step is not re-raised as a
`PredictionError`: on a concrete one-question input it propagates
unchanged. -/
theorem c2_tokenizer_exception_counterexample :
    (predict_helper tokFailBackend [["The capital of France is London."]]).1 =
      .error (.uncaught "tokenizer exploded") ∧
    PyExn.isPredictionError (.uncaught "tokenizer exploded") = false :=
  ⟨rfl, rfl⟩

/-- C2 (amended): for every input reaching inference whose
tokenization step succeeds, any exception raised by the scoring step
is caught and re-raised as a `PredictionError` carrying the original
cause; a device out-of-memory condition becomes the dedicated
`PredictionError` advising batch-size reduction; and no exception
class other than `PredictionError` escapes the scoring step (the call
either succeeds or fails with a `PredictionError`).  Exceptions from
the tokenization step itself, however, propagate unwrapped. -/
theorem c2_scoring_errors_wrapped (B : Backend) (cts : List (List String))
    (hne : cts ≠ []) (htok : B.tokExn cts.flatten = none) :
    (∀ m, B.scoreExn cts.flatten = some (.cudaOOM m) →
      (predict_helper B cts).1 = .error (.predictionError
        ("GPU out of memory. Try reducing batch size (current: "
          ++ toString cts.length ++ ")") (some m))) ∧
    (∀ m, B.scoreExn cts.flatten = some (.other m) →
      (predict_helper B cts).1 =
        .error (.predictionError ("Prediction failed: " ++ m) (some m))) ∧
    ((∃ rs, (predict_helper B cts).1 = .ok rs) ∨
      ∃ msg c, (predict_helper B cts).1 = .error (.predictionError msg c)) := by
  cases cts with
  | nil => exact absurd rfl hne
  | cons r rs =>
    have htok2 : B.tokExn (r ++ rs.flatten) = none := htok
    refine ⟨?_, ?_, ?_⟩
    · intro m hm
      have hm2 : B.scoreExn (r ++ rs.flatten) = some (.cudaOOM m) := hm
      simp [predict_helper, htok2, hm2]
    · intro m hm
      have hm2 : B.scoreExn (r ++ rs.flatten) = some (.other m) := hm
      simp [predict_helper, htok2, hm2]
    · rcases hsc : B.scoreExn (r ++ rs.flatten) with - | e
      · exact Or.inl ⟨(r :: rs).map (scoreRow B.score),
          by simp [predict_helper, htok2, hsc]⟩
      · cases e with
        | cudaOOM m =>
          exact Or.inr ⟨"GPU out of memory. Try reducing batch size (current: "
            ++ toString (r :: rs).length ++ ")", some m,
            by simp [predict_helper, htok2, hsc]⟩
        | other m =>
          exact Or.inr ⟨"Prediction failed: " ++ m, some m,
            by simp [predict_helper, htok2, hsc]⟩

/-- Witness for the amended C2: a backend whose forward pass raises a
device out-of-memory error on a single-question input yields the
dedicated batch-size-reduction `PredictionError` with the original
cause attached. -/
theorem c2_scoring_errors_wrapped_witness :
    (predict_helper oomBackend [["The capital of France is London."]]).1 =
      .error (.predictionError
        ("GPU out of memory. Try reducing batch size (current: "
          ++ toString ([["The capital of France is London."]] : List (List String)).length
          ++ ")") (some "CUDA out of memory")) :=
  (c2_scoring_errors_wrapped oomBackend [["The capital of France is London."]]
    (by decide) rfl).1 "CUDA out of memory" rfl

/-- C1 (counterexample): on the test-suite question, with a backend
favouring the `"Paris"` candidate, `predict_blank` succeeds but its
`predicted_choice` is `"The capital of France is Paris."` — the
substituted candidate text (`candidate_texts[i][pred_idx]`, line 242),
not one of the original choice strings — refuting the claim that the
predicted choice is always a member of the question's choices. -/
theorem c1_substituted_text_counterexample :
    (predict_blank parisBackend cfgDefault "The capital of France is [BLANK]."
        ["London", "Paris", "Berlin", "Madrid"]).1 =
      .ok (scoreRow parisBackend.score
        (buildCandidates "The capital of France is [BLANK]."
          ["London", "Paris", "Berlin", "Madrid"])) ∧
    (scoreRow parisBackend.score
        (buildCandidates "The capital of France is [BLANK]."
          ["London", "Paris", "Berlin", "Madrid"])).predicted_choice =
      "The capital of France is Paris." ∧
    "The capital of France is Paris." ∉
      (["London", "Paris", "Berlin", "Madrid"] : List String) := by
  refine ⟨?_, ?_, by decide⟩
  · rw [predict_blank_run parisBackend cfgDefault _ _ (by decide) (by decide)
      (fun _ => rfl) (fun _ => rfl)]
  · rw [scoreRow_predicted_eq]
    have hcands : buildCandidates "The capital of France is [BLANK]."
        ["London", "Paris", "Berlin", "Madrid"] =
        ["The capital of France is London.", "The capital of France is Paris.",
          "The capital of France is Berlin.", "The capital of France is Madrid."] := by
      decide
    rw [hcands]
    have hlog : (["The capital of France is London.", "The capital of France is Paris.",
        "The capital of France is Berlin.",
        "The capital of France is Madrid."].map parisBackend.score) = [(0 : ℝ), 1, 0, 0] := by
      simp [parisBackend]
    rw [hlog]
    have hargm : argmaxIdx [(0 : ℝ), 1, 0, 0] = 1 := by
      norm_num [argmaxIdx, argmaxGo]
    rw [hargm]
    rfl

/-- C1 (amended): for every valid question under a positive configured
choice count and an exception-free backend, `predict_blank` succeeds
and its `predicted_choice` is the *substituted candidate text* at the
winning index — the passage with every placeholder occurrence replaced
by the winning choice, an element of the built candidate set rather
than necessarily one of the original choice strings — and its length
is greater than zero. -/
theorem c1_predicted_choice_amended (B : Backend) (cfg : MCQAConfig)
    (passage : String) (choices : List String)
    (hch : validate_choices cfg.number_of_choices choices = .ok ())
    (hp : validate_passage passage = .ok ())
    (hn : 0 < cfg.number_of_choices)
    (htok : ∀ l, B.tokExn l = none) (hsc : ∀ l, B.scoreExn l = none) :
    ∃ r, (predict_blank B cfg passage choices).1 = .ok r ∧
      r.predicted_choice ∈ buildCandidates passage choices ∧
      0 < r.predicted_choice.length ∧
      r.predicted_choice = pyReplace passage "[BLANK]"
        (choices.getD
          (argmaxIdx ((buildCandidates passage choices).map B.score)) "") := by
  have hrun := predict_blank_run B cfg passage choices hch hp htok hsc
  rcases (validate_choices_ok_iff _ _).mp hch with ⟨hclen, hcblank⟩
  have hcne : choices ≠ [] := by
    intro he
    rw [he] at hclen
    simp at hclen
    omega
  have hbne := buildCandidates_ne_nil passage choices hcne
  have hk : argmaxIdx ((buildCandidates passage choices).map B.score) < choices.length := by
    have h1 := scoreRow_argmax_lt B.score (buildCandidates passage choices) hbne
    rw [argmaxIdx_softmaxRow] at h1
    simpa [buildCandidates] using h1
  have hchoice : (buildCandidates passage choices).getD
      (argmaxIdx ((buildCandidates passage choices).map B.score)) "" =
      pyReplace passage "[BLANK]"
        (choices.getD (argmaxIdx ((buildCandidates passage choices).map B.score)) "") :=
    map_getD_of_lt _ choices _ hk "" ""
  refine ⟨scoreRow B.score (buildCandidates passage choices), by rw [hrun], ?_, ?_, ?_⟩
  · exact scoreRow_predicted_mem B.score _ hbne
  · rw [scoreRow_predicted_eq, hchoice]
    apply length_pos_of_ne_empty
    apply pyReplace_ne_empty
    · exact ne_empty_of_not_isBlank passage ((validate_passage_ok_iff passage).mp hp).1
    · exact ne_empty_of_not_isBlank _
        (hcblank _ (getD_mem_of_lt choices _ hk ""))
  · rw [scoreRow_predicted_eq, hchoice]

/-- Witness for the amended C1: the test-suite question under the
default configuration and a benign backend. -/
theorem c1_predicted_choice_amended_witness :
    ∃ r, (predict_blank zeroBackend cfgDefault "The capital of France is [BLANK]."
        ["London", "Paris", "Berlin", "Madrid"]).1 = .ok r ∧
      r.predicted_choice ∈ buildCandidates "The capital of France is [BLANK]."
        ["London", "Paris", "Berlin", "Madrid"] ∧
      0 < r.predicted_choice.length ∧
      r.predicted_choice = pyReplace "The capital of France is [BLANK]." "[BLANK]"
        ((["London", "Paris", "Berlin", "Madrid"] : List String).getD
          (argmaxIdx ((buildCandidates "The capital of France is [BLANK]."
            ["London", "Paris", "Berlin", "Madrid"]).map zeroBackend.score)) "") :=
  c1_predicted_choice_amended zeroBackend cfgDefault "The capital of France is [BLANK]."
    ["London", "Paris", "Berlin", "Madrid"]
    (by decide) (by decide) (by decide) (fun _ => rfl) (fun _ => rfl)

/-- C9 (counterexample): for a configuration whose model directory
does not exist, `MCQAModel.__init__` (line 69) raises the Python
builtin `FileNotFoundError`, not a `ConfigurationError` — no class of
that name exists anywhere in the repository — so the claim that the
startup failure is raised as the taxonomy's `ConfigurationError` is
false at this concrete input. -/
theorem c9_file_not_found_counterexample :
    mcqaInit false "/srv/models/mcqa" =
      .error (.fileNotFoundError ("Model directory not found: " ++ "/srv/models/mcqa")) ∧
    PyExn.isConfigurationError
      (.fileNotFoundError ("Model directory not found: " ++ "/srv/models/mcqa")) = false :=
  ⟨rfl, rfl⟩

/-- C9 (amended): for every configuration whose resolved model
location does not exist, model construction fails fast — before any
collaborator is loaded — by raising the Python builtin
`FileNotFoundError` naming the missing directory, rather than
completing initialization; the error class is not the
`ConfigurationError` of the spec's taxonomy (which does not exist in
the code). -/
theorem c9_init_fails_fast (resolvedPath : String) :
    mcqaInit false resolvedPath =
      .error (.fileNotFoundError ("Model directory not found: " ++ resolvedPath)) ∧
    PyExn.isConfigurationError
      (.fileNotFoundError ("Model directory not found: " ++ resolvedPath)) = false :=
  ⟨rfl, rfl⟩

end MCQA
